import Mathlib

/-!
Shallow embedding of the debugging memory allocator in `src/pset1/m61.cc`.

Modelling conventions:
* `size_t` / `unsigned long long` / `uintptr_t` values are modelled as `Nat`
  with explicit `% 2^64` where the C code can wrap.
* Heap memory is modelled byte by byte as an association list from address to
  byte value; only the bytes the tracker itself reads or writes (the canary
  words, and `m61_calloc`'s zero fill) matter to any claim, and a `poke` step
  lets the host program overwrite arbitrary bytes (wild writes).
* `base_malloc` is an external collaborator: each call of `m61_malloc` is
  given the raw allocator's answer as an `Option Nat` argument (`none` = the
  raw allocator failed, `some addr` = it returned address `addr`).  The ghost
  field `base_calls` counts every invocation of the raw allocator, and the
  ghost field `history` records every allocation record ever created; neither
  ghost influences the behaviour of any operation.
* `exit(-1)` on a memory bug is modelled by returning `FreeResult.fatal b`
  together with the state at the moment of termination; the `MemoryBug`
  constructors stand for the four diagnostic messages printed by `m61_free`.
-/

namespace M61

/-- `ULONG_MAX` on the 64-bit platform the code targets. -/
def ULONG_MAX : Nat := 2 ^ 64 - 1

/-- `LONG_MAX` on the 64-bit platform, the initial value of `heap_min`. -/
def LONG_MAX : Nat := 2 ^ 63 - 1

/-- Modulus of 64-bit unsigned arithmetic. -/
def U64 : Nat := 2 ^ 64

/-- `static int BOUNDARY_CHECK = 0xBADBEEF;` — the canary sentinel value. -/
def BOUNDARY_CHECK : Nat := 0xBADBEEF

/-- `static size_t BOUNDARY_CHECK_SIZE = sizeof(int);` — 4 bytes. -/
def BOUNDARY_CHECK_SIZE : Nat := 4

/-- 64-bit wrapping subtraction (`a - b` on `unsigned long long`). -/
def wsub (a b : Nat) : Nat := (a + (U64 - b % U64)) % U64

/-- Byte-addressed memory: association list from address to byte value. -/
def Mem : Type := List (Nat × Nat)

instance : DecidableEq Mem := by unfold Mem; infer_instance

/-- The empty memory. -/
def Mem.empty : Mem := []

/-- Write one byte (value taken mod 256) at address `a`. -/
def writeByte : Mem → Nat → Nat → Mem
  | [], a, v => [(a, v % 256)]
  | (b, w) :: rest, a, v =>
      if b = a then (a, v % 256) :: rest else (b, w) :: writeByte rest a v

/-- Read one byte at address `a` (unwritten bytes read as 0). -/
def readByte : Mem → Nat → Nat
  | [], _ => 0
  | (b, w) :: rest, a => if b = a then w else readByte rest a

/-- Store a 32-bit `int` value at address `a`, little endian
    (`temp[0] = BOUNDARY_CHECK` in the source). -/
def store4 (m : Mem) (a v : Nat) : Mem :=
  writeByte (writeByte (writeByte (writeByte m a v) (a + 1) (v / 256))
    (a + 2) (v / 256 ^ 2)) (a + 3) (v / 256 ^ 3)

/-- Load a 32-bit `int` value from address `a`, little endian
    (`temp[0]` in the wild-write check of `m61_free`). -/
def load4 (m : Mem) (a : Nat) : Nat :=
  readByte m a + 256 * readByte m (a + 1) + 256 ^ 2 * readByte m (a + 2) +
    256 ^ 3 * readByte m (a + 3)

/-- `memset(ptr, 0, n)` — zero `n` consecutive bytes starting at `a`. -/
def memset0 : Mem → Nat → Nat → Mem
  | m, _, 0 => m
  | m, a, n + 1 => memset0 (writeByte m a 0) (a + 1) n

/-- `struct metadata_node` from the source (`file`, `line`, `sz`). -/
structure metadata_node where
  file : String
  line : Int
  sz : Nat
  deriving DecidableEq, Repr

/-- `metadata.find(k)` on the address-keyed `std::map` (keys are unique). -/
def lookupKey (k : Nat) : List (Nat × metadata_node) → Option metadata_node
  | [] => none
  | (a, n) :: rest => if a = k then some n else lookupKey k rest

/-- Erase the entry with key `k` from an association list
    (`metadata.erase(meta)` in the source; keys are unique in a `std::map`). -/
def eraseKey (k : Nat) : List (Nat × metadata_node) → List (Nat × metadata_node)
  | [] => []
  | (a, n) :: rest => if a = k then rest else (a, n) :: eraseKey k rest

/-- The tracker's global state: the `static` variables of `m61.cc`,
    plus the heap bytes and the two ghost observation fields. -/
structure AllocState where
  metadata : List (Nat × metadata_node)
  free_list : List Nat
  ntotal : Nat
  nactive : Nat
  active_size : Nat
  total_size : Nat
  fail_size : Nat
  nfail : Nat
  heap_min : Nat
  heap_max : Nat
  mem : Mem
  base_calls : Nat
  history : List (Nat × Nat)
  deriving DecidableEq

/-- The initial values of the `static` variables. -/
def m61_initial : AllocState :=
  { metadata := [], free_list := [], ntotal := 0, nactive := 0,
    active_size := 0, total_size := 0, fail_size := 0, nfail := 0,
    heap_min := LONG_MAX, heap_max := 0, mem := Mem.empty,
    base_calls := 0, history := [] }

/-- `m61_malloc(sz, file, line)`.  `raw` is the raw allocator's answer for
    the request of `sz + BOUNDARY_CHECK_SIZE` bytes (consulted only when the
    overflow guard passes). -/
def m61_malloc (s : AllocState) (raw : Option Nat) (sz : Nat) (file : String)
    (line : Int) : Option Nat × AllocState :=
  if ULONG_MAX - BOUNDARY_CHECK_SIZE ≤ sz then
    (none, { s with nfail := (s.nfail + 1) % U64,
                    fail_size := (s.fail_size + sz) % U64 })
  else
    match raw with
    | none =>
        (none, { s with base_calls := s.base_calls + 1,
                        nfail := (s.nfail + 1) % U64,
                        fail_size := (s.fail_size + sz) % U64 })
    | some addr =>
        let s1 : AllocState :=
          { s with base_calls := s.base_calls + 2,
                   free_list := s.free_list.erase addr,
                   mem := store4 s.mem ((addr + sz) % U64) BOUNDARY_CHECK,
                   ntotal := (s.ntotal + 1) % U64,
                   nactive := (s.nactive + 1) % U64,
                   total_size := (s.total_size + sz) % U64,
                   active_size := (s.active_size + sz) % U64,
                   metadata :=
                     if (lookupKey addr s.metadata).isSome then s.metadata
                     else (addr, ⟨file, line, sz⟩) :: s.metadata,
                   history := (addr, sz) :: s.history }
        (some addr,
          { s1 with
              heap_min := if addr < s1.heap_min then addr else s1.heap_min,
              heap_max := if s1.heap_max < (addr + sz) % U64
                          then (addr + sz) % U64 else s1.heap_max })

/-- The four fatal diagnostics `m61_free` can print before `exit(-1)`:
    "double free", "detected wild write during free", "not in heap",
    "not allocated". -/
inductive MemoryBug where
  | doubleFree
  | wildWrite
  | notInHeap
  | notAllocated
  deriving DecidableEq, Repr

/-- Outcome of `m61_free`: normal return, or process termination with one of
    the four diagnostics. -/
inductive FreeResult where
  | ok
  | fatal (bug : MemoryBug)
  deriving DecidableEq, Repr

/-- `m61_free(ptr, file, line)`.  On a fatal bug the returned state is the
    state at the moment `exit(-1)` runs. -/
def m61_free (s : AllocState) (ptr : Nat) (file : String) (line : Int) :
    FreeResult × AllocState :=
  if ptr = 0 then (.ok, s)
  else if ptr ∈ s.free_list then (.fatal .doubleFree, s)
  else
    match lookupKey ptr s.metadata with
    | some meta =>
        if load4 s.mem ((ptr + meta.sz) % U64) ≠ BOUNDARY_CHECK then
          (.fatal .wildWrite, s)
        else
          (.ok, { s with nactive := wsub s.nactive 1,
                         active_size := wsub s.active_size meta.sz,
                         metadata := eraseKey ptr s.metadata,
                         free_list := s.free_list.insert ptr })
    | none =>
        if ptr < s.heap_min ∨ s.heap_max < ptr then (.fatal .notInHeap, s)
        else (.fatal .notAllocated, s)

/-- `m61_calloc(nmemb, sz, file, line)`; `raw` is passed through to
    `m61_malloc`. -/
def m61_calloc (s : AllocState) (raw : Option Nat) (nmemb sz : Nat)
    (file : String) (line : Int) : Option Nat × AllocState :=
  let total := (nmemb * sz) % U64
  if nmemb ≠ 0 ∧ total / nmemb ≠ sz then
    (none, { s with nfail := (s.nfail + 1) % U64,
                    fail_size := (s.fail_size + sz) % U64 })
  else
    let r := m61_malloc s raw total file line
    match r.1 with
    | some addr => (some addr, { r.2 with mem := memset0 r.2.mem addr total })
    | none => (none, r.2)

/-- `struct m61_statistics`, as filled in by `m61_get_statistics`. -/
structure m61_statistics where
  nactive : Nat
  active_size : Nat
  ntotal : Nat
  total_size : Nat
  nfail : Nat
  fail_size : Nat
  heap_min : Nat
  heap_max : Nat
  deriving DecidableEq, Repr

/-- `m61_get_statistics(stats)` — copies the counters into the snapshot. -/
def m61_get_statistics (s : AllocState) : m61_statistics :=
  { nactive := s.nactive, active_size := s.active_size, ntotal := s.ntotal,
    total_size := s.total_size, nfail := s.nfail, fail_size := s.fail_size,
    heap_min := s.heap_min, heap_max := s.heap_max }

/-- `m61_print_heavy_hitter_report()`: the function body in the source is
    empty (only the comment "Your heavy-hitters code here"), so it prints
    nothing in every state. -/
def m61_print_heavy_hitter_report (_s : AllocState) : List String := []

/-- The padded blocks `[p.1, p.1 + p.2.sz + BOUNDARY_CHECK_SIZE)` and
    `[q.1, q.1 + q.2.sz + BOUNDARY_CHECK_SIZE)` occupy disjoint address
    ranges. -/
def blocksDisjoint (p q : Nat × metadata_node) : Prop :=
  p.1 + p.2.sz + BOUNDARY_CHECK_SIZE ≤ q.1 ∨
    q.1 + q.2.sz + BOUNDARY_CHECK_SIZE ≤ p.1

instance (p q : Nat × metadata_node) : Decidable (blocksDisjoint p q) := by
  unfold blocksDisjoint; infer_instance

/-- Correctness of the raw allocator's answer `addr` for a padded request of
    `sz + BOUNDARY_CHECK_SIZE` bytes: non-null, the block fits in the address
    space, and it is disjoint from every block currently live in the metadata
    store (a correct `base_malloc` never hands out memory overlapping a block
    it has not been given back). -/
def RawOk (s : AllocState) (addr sz : Nat) : Prop :=
  addr ≠ 0 ∧ addr + sz + BOUNDARY_CHECK_SIZE ≤ U64 ∧
    ∀ p ∈ s.metadata, blocksDisjoint (addr, ⟨"", 0, sz⟩) p

instance (s : AllocState) (addr sz : Nat) : Decidable (RawOk s addr sz) := by
  unfold RawOk; infer_instance

/-- One step of the host program: an allocator call (with a correct raw
    allocator), a free, a statistics read, or an arbitrary byte write by the
    host (a potential wild write). -/
inductive Step : AllocState → AllocState → Prop where
  | malloc (s : AllocState) (raw : Option Nat) (sz : Nat) (file : String)
      (line : Int) (hraw : ∀ a, raw = some a → RawOk s a sz) :
      Step s (m61_malloc s raw sz file line).2
  | calloc (s : AllocState) (raw : Option Nat) (nmemb sz : Nat)
      (file : String) (line : Int)
      (hraw : ∀ a, raw = some a → RawOk s a ((nmemb * sz) % U64)) :
      Step s (m61_calloc s raw nmemb sz file line).2
  | free (s : AllocState) (ptr : Nat) (file : String) (line : Int) :
      Step s (m61_free s ptr file line).2
  | poke (s : AllocState) (a v : Nat) :
      Step s { s with mem := writeByte s.mem a v }

/-- States reachable from the initial state. -/
inductive Reachable : AllocState → Prop where
  | init : Reachable m61_initial
  | step {s s' : AllocState} : Reachable s → Step s s' → Reachable s'

/-- The padded address range of a block, as a finite set. -/
def blockSet (p : Nat × metadata_node) : Finset Nat :=
  Finset.Ico p.1 (p.1 + p.2.sz + BOUNDARY_CHECK_SIZE)

/-- The union of the padded ranges of a list of blocks. -/
def blockUnion : List (Nat × metadata_node) → Finset Nat
  | [] => ∅
  | p :: rest => blockSet p ∪ blockUnion rest

/-- Inductive invariant of the tracker state: live blocks fit in the address
    space and are pairwise disjoint, the active counters agree with the
    metadata store, and the heap bounds cover every record ever created. -/
structure Inv (s : AllocState) : Prop where
  fits : ∀ p ∈ s.metadata, p.1 + p.2.sz + BOUNDARY_CHECK_SIZE ≤ U64
  disj : s.metadata.Pairwise blocksDisjoint
  asum : s.active_size = (s.metadata.map (fun p => p.2.sz)).sum
  acnt : s.nactive = s.metadata.length
  hist : ∀ r ∈ s.history, s.heap_min ≤ r.1 ∧ r.1 + r.2 ≤ s.heap_max

/-- State after `m61_malloc(100, "hello.c", 1)` returning address 1000. -/
def exA : AllocState := (m61_malloc m61_initial (some 1000) 100 "hello.c" 1).2

/-- State after a further `m61_malloc(50, "hello.c", 2)` returning 2000. -/
def exB : AllocState := (m61_malloc exA (some 2000) 50 "hello.c" 2).2

/-- State after freeing the 100-byte block at 1000. -/
def exC : AllocState := (m61_free exB 1000 "hello.c" 3).2

/-- State after a raw-allocator failure on a 7-byte request. -/
def exFail : AllocState := (m61_malloc m61_initial none 7 "hello.c" 4).2

/-! ### Memory lemmas -/

theorem readByte_writeByte_same (m : Mem) (a v : Nat) :
    readByte (writeByte m a v) a = v % 256 := by
  induction m with
  | nil => simp [writeByte, readByte]
  | cons p rest ih =>
      obtain ⟨b, w⟩ := p
      by_cases hb : b = a <;> simp [writeByte, readByte, hb, ih]

theorem readByte_writeByte_ne (m : Mem) (a b v : Nat) (h : b ≠ a) :
    readByte (writeByte m b v) a = readByte m a := by
  induction m with
  | nil => simp [writeByte, readByte, h]
  | cons p rest ih =>
      obtain ⟨c, w⟩ := p
      by_cases hc : c = b
      · subst hc; simp [writeByte, readByte, h]
      · by_cases hca : c = a <;>
          simp [writeByte, readByte, hc, hca, ih, h, Ne.symm h]

theorem readByte_store4_outside (m : Mem) (a b v : Nat)
    (h : a < b ∨ b + 4 ≤ a) :
    readByte (store4 m b v) a = readByte m a := by
  unfold store4
  rw [readByte_writeByte_ne _ _ _ _ (by omega), readByte_writeByte_ne _ _ _ _ (by omega),
    readByte_writeByte_ne _ _ _ _ (by omega), readByte_writeByte_ne _ _ _ _ (by omega)]

theorem load4_store4_same (m : Mem) (a v : Nat) :
    load4 (store4 m a v) a = v % 2 ^ 32 := by
  unfold store4 load4
  rw [readByte_writeByte_same]
  rw [readByte_writeByte_ne _ _ _ _ (by omega), readByte_writeByte_ne _ _ _ _ (by omega),
    readByte_writeByte_ne _ _ _ _ (by omega), readByte_writeByte_same]
  rw [readByte_writeByte_ne _ _ _ _ (by omega), readByte_writeByte_ne _ _ _ _ (by omega),
    readByte_writeByte_same]
  rw [readByte_writeByte_ne _ _ _ _ (by omega), readByte_writeByte_same]
  omega

theorem load4_store4_disjoint (m : Mem) (a b v : Nat)
    (h : a + 4 ≤ b ∨ b + 4 ≤ a) :
    load4 (store4 m b v) a = load4 m a := by
  unfold load4
  rw [readByte_store4_outside _ _ _ _ (by omega), readByte_store4_outside _ _ _ _ (by omega),
    readByte_store4_outside _ _ _ _ (by omega), readByte_store4_outside _ _ _ _ (by omega)]

/-! ### Association-list lemmas -/

theorem mem_of_lookupKey_eq_some {l : List (Nat × metadata_node)} {k : Nat}
    {v : metadata_node} (h : lookupKey k l = some v) : (k, v) ∈ l := by
  induction l with
  | nil => simp [lookupKey] at h
  | cons p rest ih =>
      obtain ⟨a, n⟩ := p
      by_cases ha : a = k
      · subst ha
        simp [lookupKey] at h
        simp [h]
      · simp [lookupKey, ha] at h
        exact List.mem_cons_of_mem _ (ih h)

theorem lookupKey_eq_none_of_forall {l : List (Nat × metadata_node)} {k : Nat}
    (h : ∀ p ∈ l, p.1 ≠ k) : lookupKey k l = none := by
  induction l with
  | nil => simp [lookupKey]
  | cons p rest ih =>
      obtain ⟨a, n⟩ := p
      have ha : a ≠ k := h (a, n) (List.mem_cons_self _ _)
      simp [lookupKey, ha]
      exact ih fun p hp => h p (List.mem_cons_of_mem _ hp)

theorem eraseKey_sublist (k : Nat) (l : List (Nat × metadata_node)) :
    (eraseKey k l).Sublist l := by
  induction l with
  | nil => simp [eraseKey]
  | cons p rest ih =>
      obtain ⟨a, n⟩ := p
      by_cases ha : a = k
      · simp only [eraseKey, if_pos ha]
        exact List.sublist_cons_self _ _
      · simp only [eraseKey, if_neg ha]
        exact ih.cons₂ (a, n)

theorem sum_eraseKey {l : List (Nat × metadata_node)} {k : Nat}
    {v : metadata_node} (h : lookupKey k l = some v) :
    ((eraseKey k l).map (fun p => p.2.sz)).sum + v.sz =
      (l.map (fun p => p.2.sz)).sum := by
  induction l with
  | nil => simp [lookupKey] at h
  | cons p rest ih =>
      obtain ⟨a, n⟩ := p
      by_cases ha : a = k
      · simp [lookupKey, ha] at h
        subst h
        simp [eraseKey, ha]
        omega
      · simp [lookupKey, ha] at h
        simp [eraseKey, ha]
        have h2 := ih h
        omega

theorem length_eraseKey {l : List (Nat × metadata_node)} {k : Nat}
    {v : metadata_node} (h : lookupKey k l = some v) :
    (eraseKey k l).length + 1 = l.length := by
  induction l with
  | nil => simp [lookupKey] at h
  | cons p rest ih =>
      obtain ⟨a, n⟩ := p
      by_cases ha : a = k
      · simp [eraseKey, ha]
      · simp [lookupKey, ha] at h
        simp [eraseKey, ha]
        exact ih h

/-! ### Disjoint padded blocks cannot exceed the address space -/

theorem disjoint_blockSet {p q : Nat × metadata_node}
    (h : blocksDisjoint p q) : Disjoint (blockSet p) (blockSet q) := by
  rw [Finset.disjoint_left]
  intro x hx hy
  simp only [blockSet, Finset.mem_Ico] at hx hy
  rcases h with h | h <;> omega

theorem disjoint_blockUnion {p : Nat × metadata_node}
    {l : List (Nat × metadata_node)} (h : ∀ q ∈ l, blocksDisjoint p q) :
    Disjoint (blockSet p) (blockUnion l) := by
  induction l with
  | nil => simp [blockUnion]
  | cons q rest ih =>
      rw [blockUnion, Finset.disjoint_union_right]
      exact ⟨disjoint_blockSet (h q (List.mem_cons_self _ _)),
        ih fun r hr => h r (List.mem_cons_of_mem _ hr)⟩

theorem card_blockUnion {l : List (Nat × metadata_node)}
    (h : l.Pairwise blocksDisjoint) :
    (blockUnion l).card =
      (l.map (fun p => p.2.sz + BOUNDARY_CHECK_SIZE)).sum := by
  induction l with
  | nil => simp [blockUnion]
  | cons p rest ih =>
      rw [List.pairwise_cons] at h
      rw [blockUnion, Finset.card_union_of_disjoint (disjoint_blockUnion h.1)]
      rw [ih h.2]
      simp [blockSet, Nat.card_Ico]
      omega

theorem blockUnion_subset_range {l : List (Nat × metadata_node)}
    (h : ∀ p ∈ l, p.1 + p.2.sz + BOUNDARY_CHECK_SIZE ≤ U64) :
    blockUnion l ⊆ Finset.range U64 := by
  induction l with
  | nil => simp [blockUnion]
  | cons p rest ih =>
      rw [blockUnion, Finset.union_subset_iff]
      constructor
      · intro x hx
        simp [blockSet, Finset.mem_Ico] at hx
        have := h p (List.mem_cons_self _ _)
        simp [Finset.mem_range]
        omega
      · exact ih fun q hq => h q (List.mem_cons_of_mem _ hq)

theorem sum_blocks_le {l : List (Nat × metadata_node)}
    (hfits : ∀ p ∈ l, p.1 + p.2.sz + BOUNDARY_CHECK_SIZE ≤ U64)
    (hdisj : l.Pairwise blocksDisjoint) :
    (l.map (fun p => p.2.sz + BOUNDARY_CHECK_SIZE)).sum ≤ U64 := by
  rw [← card_blockUnion hdisj]
  calc (blockUnion l).card ≤ (Finset.range U64).card :=
        Finset.card_le_card (blockUnion_subset_range hfits)
    _ = U64 := Finset.card_range U64

theorem sum_map_sz_add (l : List (Nat × metadata_node)) (c : Nat) :
    (l.map (fun p => p.2.sz + c)).sum =
      (l.map (fun p => p.2.sz)).sum + c * l.length := by
  induction l with
  | nil => simp
  | cons p rest ih => simp [ih]; ring

/-! ### Characterizations of the operation branches -/

theorem wsub_eq_sub {a b : Nat} (hb : b ≤ a) (ha : a < U64) : wsub a b = a - b := by
  have hbU : b < U64 := lt_of_le_of_lt hb ha
  have h1 : b % U64 = b := Nat.mod_eq_of_lt hbU
  have h2 : a + (U64 - b) = U64 + (a - b) := by omega
  rw [wsub, h1, h2, Nat.add_mod_left, Nat.mod_eq_of_lt (by omega)]

theorem m61_malloc_guard_reject {s : AllocState} {raw : Option Nat} {sz : Nat}
    {file : String} {line : Int} (hg : ULONG_MAX - BOUNDARY_CHECK_SIZE ≤ sz) :
    m61_malloc s raw sz file line =
      (none, { s with nfail := (s.nfail + 1) % U64,
                      fail_size := (s.fail_size + sz) % U64 }) := by
  simp [m61_malloc, hg]

theorem m61_malloc_raw_fail {s : AllocState} {sz : Nat} {file : String}
    {line : Int} (hg : ¬ ULONG_MAX - BOUNDARY_CHECK_SIZE ≤ sz) :
    m61_malloc s none sz file line =
      (none, { s with base_calls := s.base_calls + 1,
                      nfail := (s.nfail + 1) % U64,
                      fail_size := (s.fail_size + sz) % U64 }) := by
  simp [m61_malloc, hg]

theorem m61_malloc_success {s : AllocState} {addr sz : Nat} {file : String}
    {line : Int} (hg : ¬ ULONG_MAX - BOUNDARY_CHECK_SIZE ≤ sz)
    (hfresh : lookupKey addr s.metadata = none) :
    m61_malloc s (some addr) sz file line =
      (some addr,
        { s with base_calls := s.base_calls + 2,
                 free_list := s.free_list.erase addr,
                 mem := store4 s.mem ((addr + sz) % U64) BOUNDARY_CHECK,
                 ntotal := (s.ntotal + 1) % U64,
                 nactive := (s.nactive + 1) % U64,
                 total_size := (s.total_size + sz) % U64,
                 active_size := (s.active_size + sz) % U64,
                 metadata := (addr, ⟨file, line, sz⟩) :: s.metadata,
                 history := (addr, sz) :: s.history,
                 heap_min := if addr < s.heap_min then addr else s.heap_min,
                 heap_max := if s.heap_max < (addr + sz) % U64
                             then (addr + sz) % U64 else s.heap_max }) := by
  simp [m61_malloc, hg, hfresh]

theorem m61_free_null {s : AllocState} {file : String} {line : Int} :
    m61_free s 0 file line = (.ok, s) := by
  simp [m61_free]

theorem m61_free_double {s : AllocState} {ptr : Nat} {file : String}
    {line : Int} (h0 : ptr ≠ 0) (hf : ptr ∈ s.free_list) :
    m61_free s ptr file line = (.fatal .doubleFree, s) := by
  simp [m61_free, h0, hf]

theorem m61_free_wild {s : AllocState} {ptr : Nat} {file : String} {line : Int}
    {meta : metadata_node} (h0 : ptr ≠ 0) (hf : ptr ∉ s.free_list)
    (hm : lookupKey ptr s.metadata = some meta)
    (hc : load4 s.mem ((ptr + meta.sz) % U64) ≠ BOUNDARY_CHECK) :
    m61_free s ptr file line = (.fatal .wildWrite, s) := by
  simp [m61_free, h0, hf, hm, hc]

theorem m61_free_live_ok {s : AllocState} {ptr : Nat} {file : String}
    {line : Int} {meta : metadata_node} (h0 : ptr ≠ 0)
    (hf : ptr ∉ s.free_list) (hm : lookupKey ptr s.metadata = some meta)
    (hc : load4 s.mem ((ptr + meta.sz) % U64) = BOUNDARY_CHECK) :
    m61_free s ptr file line =
      (.ok, { s with nactive := wsub s.nactive 1,
                     active_size := wsub s.active_size meta.sz,
                     metadata := eraseKey ptr s.metadata,
                     free_list := s.free_list.insert ptr }) := by
  simp [m61_free, h0, hf, hm, hc]

theorem m61_free_not_in_heap {s : AllocState} {ptr : Nat} {file : String}
    {line : Int} (h0 : ptr ≠ 0) (hf : ptr ∉ s.free_list)
    (hm : lookupKey ptr s.metadata = none)
    (hb : ptr < s.heap_min ∨ s.heap_max < ptr) :
    m61_free s ptr file line = (.fatal .notInHeap, s) := by
  simp [m61_free, h0, hf, hm, hb]

theorem m61_free_not_allocated {s : AllocState} {ptr : Nat} {file : String}
    {line : Int} (h0 : ptr ≠ 0) (hf : ptr ∉ s.free_list)
    (hm : lookupKey ptr s.metadata = none)
    (hb : ¬ (ptr < s.heap_min ∨ s.heap_max < ptr)) :
    m61_free s ptr file line = (.fatal .notAllocated, s) := by
  simp [m61_free, h0, hf, hm, hb]

theorem m61_calloc_overflow {s : AllocState} {raw : Option Nat}
    {nmemb sz : Nat} {file : String} {line : Int} (hn : nmemb ≠ 0)
    (ho : (nmemb * sz) % U64 / nmemb ≠ sz) :
    m61_calloc s raw nmemb sz file line =
      (none, { s with nfail := (s.nfail + 1) % U64,
                      fail_size := (s.fail_size + sz) % U64 }) := by
  simp [m61_calloc, hn, ho]

/-! ### The tracker invariant and its preservation -/

theorem inv_initial : Inv m61_initial := by
  constructor <;> simp [m61_initial]

theorem malloc_inv {s : AllocState} (hs : Inv s) (raw : Option Nat) (sz : Nat)
    (file : String) (line : Int)
    (hraw : ∀ a, raw = some a → RawOk s a sz) :
    Inv (m61_malloc s raw sz file line).2 := by
  by_cases hg : ULONG_MAX - BOUNDARY_CHECK_SIZE ≤ sz
  · rw [m61_malloc_guard_reject hg]
    exact ⟨hs.fits, hs.disj, hs.asum, hs.acnt, hs.hist⟩
  cases raw with
  | none =>
      rw [m61_malloc_raw_fail hg]
      exact ⟨hs.fits, hs.disj, hs.asum, hs.acnt, hs.hist⟩
  | some addr =>
      obtain ⟨hnz, hfit, hdis⟩ := hraw addr rfl
      have hfit4 : addr + sz + 4 ≤ U64 := by
        simpa [BOUNDARY_CHECK_SIZE] using hfit
      have hfresh : lookupKey addr s.metadata = none := by
        apply lookupKey_eq_none_of_forall
        intro p hp heq
        have hd := hdis p hp
        simp [blocksDisjoint, BOUNDARY_CHECK_SIZE] at hd
        omega
      rw [m61_malloc_success hg hfresh]
      have hfits' : ∀ p ∈ (addr, (⟨file, line, sz⟩ : metadata_node)) :: s.metadata,
          p.1 + p.2.sz + BOUNDARY_CHECK_SIZE ≤ U64 := by
        intro p hp
        rcases List.mem_cons.mp hp with rfl | hp
        · simpa using hfit
        · exact hs.fits p hp
      have hdisj' : ((addr, (⟨file, line, sz⟩ : metadata_node)) ::
          s.metadata).Pairwise blocksDisjoint := by
        rw [List.pairwise_cons]
        refine ⟨fun q hq => ?_, hs.disj⟩
        have hd := hdis q hq
        simp [blocksDisjoint] at hd ⊢
        exact hd
      have hsum := sum_blocks_le hfits' hdisj'
      rw [sum_map_sz_add] at hsum
      simp only [List.map_cons, List.sum_cons, List.length_cons,
        BOUNDARY_CHECK_SIZE] at hsum
      have hS : sz + (s.metadata.map (fun p => p.2.sz)).sum < U64 := by omega
      have hL : s.metadata.length + 1 < U64 := by omega
      have hasum : (s.active_size + sz) % U64 =
          sz + (s.metadata.map (fun p => p.2.sz)).sum := by
        rw [hs.asum, Nat.add_comm]
        exact Nat.mod_eq_of_lt hS
      have hacnt : (s.nactive + 1) % U64 = s.metadata.length + 1 := by
        rw [hs.acnt]
        exact Nat.mod_eq_of_lt hL
      have haddsz : (addr + sz) % U64 = addr + sz := Nat.mod_eq_of_lt (by omega)
      have hhist : ∀ r ∈ (addr, sz) :: s.history,
          (if addr < s.heap_min then addr else s.heap_min) ≤ r.1 ∧
            r.1 + r.2 ≤ (if s.heap_max < (addr + sz) % U64
                         then (addr + sz) % U64 else s.heap_max) := by
        intro r hr
        rcases List.mem_cons.mp hr with rfl | hr
        · constructor
          · show (if addr < s.heap_min then addr else s.heap_min) ≤ addr
            split_ifs <;> omega
          · show addr + sz ≤ (if s.heap_max < (addr + sz) % U64
                              then (addr + sz) % U64 else s.heap_max)
            rw [haddsz]
            split_ifs <;> omega
        · obtain ⟨h1, h2⟩ := hs.hist r hr
          constructor
          · split_ifs <;> omega
          · rw [haddsz]
            split_ifs <;> omega
      exact ⟨hfits', hdisj', hasum, hacnt, hhist⟩

theorem free_inv {s : AllocState} (hs : Inv s) (ptr : Nat) (file : String)
    (line : Int) : Inv (m61_free s ptr file line).2 := by
  by_cases h0 : ptr = 0
  · rw [h0, m61_free_null]; exact hs
  by_cases hf : ptr ∈ s.free_list
  · rw [m61_free_double h0 hf]; exact hs
  cases hm : lookupKey ptr s.metadata with
  | none =>
      by_cases hb : ptr < s.heap_min ∨ s.heap_max < ptr
      · rw [m61_free_not_in_heap h0 hf hm hb]; exact hs
      · rw [m61_free_not_allocated h0 hf hm hb]; exact hs
  | some meta =>
      by_cases hc : load4 s.mem ((ptr + meta.sz) % U64) = BOUNDARY_CHECK
      · rw [m61_free_live_ok h0 hf hm hc]
        have hsub := eraseKey_sublist ptr s.metadata
        have hfits' : ∀ p ∈ eraseKey ptr s.metadata,
            p.1 + p.2.sz + BOUNDARY_CHECK_SIZE ≤ U64 :=
          fun p hp => hs.fits p (hsub.subset hp)
        have hdisj' := hs.disj.sublist hsub
        have hsz := sum_eraseKey hm
        have hlen := length_eraseKey hm
        have hbound := sum_blocks_le hs.fits hs.disj
        rw [sum_map_sz_add] at hbound
        simp only [BOUNDARY_CHECK_SIZE] at hbound
        have hasum : wsub s.active_size meta.sz =
            ((eraseKey ptr s.metadata).map (fun p => p.2.sz)).sum := by
          rw [hs.asum, wsub_eq_sub (by omega) (by omega)]
          omega
        have hacnt : wsub s.nactive 1 = (eraseKey ptr s.metadata).length := by
          rw [hs.acnt, wsub_eq_sub (by omega) (by omega)]
          omega
        exact ⟨hfits', hdisj', hasum, hacnt, hs.hist⟩
      · rw [m61_free_wild h0 hf hm hc]; exact hs

theorem calloc_inv {s : AllocState} (hs : Inv s) (raw : Option Nat)
    (nmemb sz : Nat) (file : String) (line : Int)
    (hraw : ∀ a, raw = some a → RawOk s a ((nmemb * sz) % U64)) :
    Inv (m61_calloc s raw nmemb sz file line).2 := by
  by_cases hn : nmemb ≠ 0
  all_goals by_cases ho : (nmemb * sz) % U64 / nmemb ≠ sz
  · rw [m61_calloc_overflow hn ho]
    exact ⟨hs.fits, hs.disj, hs.asum, hs.acnt, hs.hist⟩
  all_goals {
    have hminv := malloc_inv hs raw ((nmemb * sz) % U64) file line hraw
    simp only [m61_calloc, hn, ho, if_neg, and_false, false_and, if_false]
    cases hr : (m61_malloc s raw ((nmemb * sz) % U64) file line).1 with
    | none => simpa [hr] using hminv
    | some addr =>
        simp only [hr]
        exact ⟨hminv.fits, hminv.disj, hminv.asum, hminv.acnt, hminv.hist⟩
  }

theorem step_inv {s s' : AllocState} (hs : Inv s) (hstep : Step s s') :
    Inv s' := by
  cases hstep with
  | malloc raw sz file line hraw => exact malloc_inv hs raw sz file line hraw
  | calloc raw nmemb sz file line hraw =>
      exact calloc_inv hs raw nmemb sz file line hraw
  | free ptr file line => exact free_inv hs ptr file line
  | poke a v => exact ⟨hs.fits, hs.disj, hs.asum, hs.acnt, hs.hist⟩

theorem reachable_inv {s : AllocState} (h : Reachable s) : Inv s := by
  induction h with
  | init => exact inv_initial
  | step _ hstep ih => exact step_inv ih hstep

/-! ### Heap-bound monotonicity -/

theorem m61_malloc_heap_bounds (s : AllocState) (raw : Option Nat) (sz : Nat)
    (file : String) (line : Int) :
    (m61_malloc s raw sz file line).2.heap_min ≤ s.heap_min ∧
      s.heap_max ≤ (m61_malloc s raw sz file line).2.heap_max := by
  by_cases hg : ULONG_MAX - BOUNDARY_CHECK_SIZE ≤ sz
  · rw [m61_malloc_guard_reject hg]
    exact ⟨le_rfl, le_rfl⟩
  cases raw with
  | none =>
      rw [m61_malloc_raw_fail hg]
      exact ⟨le_rfl, le_rfl⟩
  | some addr =>
      simp only [m61_malloc, if_neg hg]
      constructor
      · show (if addr < s.heap_min then addr else s.heap_min) ≤ s.heap_min
        split_ifs <;> omega
      · show s.heap_max ≤ (if s.heap_max < (addr + sz) % U64
                           then (addr + sz) % U64 else s.heap_max)
        split_ifs <;> omega

theorem m61_free_heap_bounds (s : AllocState) (ptr : Nat) (file : String)
    (line : Int) :
    (m61_free s ptr file line).2.heap_min = s.heap_min ∧
      (m61_free s ptr file line).2.heap_max = s.heap_max := by
  by_cases h0 : ptr = 0
  · rw [h0, m61_free_null]; exact ⟨rfl, rfl⟩
  by_cases hf : ptr ∈ s.free_list
  · rw [m61_free_double h0 hf]; exact ⟨rfl, rfl⟩
  cases hm : lookupKey ptr s.metadata with
  | none =>
      by_cases hb : ptr < s.heap_min ∨ s.heap_max < ptr
      · rw [m61_free_not_in_heap h0 hf hm hb]; exact ⟨rfl, rfl⟩
      · rw [m61_free_not_allocated h0 hf hm hb]; exact ⟨rfl, rfl⟩
  | some meta =>
      by_cases hc : load4 s.mem ((ptr + meta.sz) % U64) = BOUNDARY_CHECK
      · rw [m61_free_live_ok h0 hf hm hc]; exact ⟨rfl, rfl⟩
      · rw [m61_free_wild h0 hf hm hc]; exact ⟨rfl, rfl⟩

theorem m61_calloc_heap_bounds (s : AllocState) (raw : Option Nat)
    (nmemb sz : Nat) (file : String) (line : Int) :
    (m61_calloc s raw nmemb sz file line).2.heap_min ≤ s.heap_min ∧
      s.heap_max ≤ (m61_calloc s raw nmemb sz file line).2.heap_max := by
  by_cases hn : nmemb ≠ 0
  all_goals by_cases ho : (nmemb * sz) % U64 / nmemb ≠ sz
  · rw [m61_calloc_overflow hn ho]
    exact ⟨le_rfl, le_rfl⟩
  all_goals {
    have h := m61_malloc_heap_bounds s raw ((nmemb * sz) % U64) file line
    simp only [m61_calloc, hn, ho, if_neg, and_false, false_and, if_false]
    cases hr : (m61_malloc s raw ((nmemb * sz) % U64) file line).1 with
    | none => simpa [hr] using h
    | some addr =>
        simp only [hr]
        exact h
  }

theorem step_heap_bounds {s s' : AllocState} (h : Step s s') :
    s'.heap_min ≤ s.heap_min ∧ s.heap_max ≤ s'.heap_max := by
  cases h with
  | malloc raw sz file line hraw =>
      exact m61_malloc_heap_bounds s raw sz file line
  | calloc raw nmemb sz file line hraw =>
      exact m61_calloc_heap_bounds s raw nmemb sz file line
  | free ptr file line =>
      obtain ⟨h1, h2⟩ := m61_free_heap_bounds s ptr file line
      exact ⟨le_of_eq h1, le_of_eq h2.symm⟩
  | poke a v => exact ⟨le_rfl, le_rfl⟩

/-! ### A concrete trace used as witness material -/

theorem reachable_exA : Reachable exA :=
  Reachable.step Reachable.init
    (Step.malloc m61_initial (some 1000) 100 "hello.c" 1
      (fun a h => by injection h with h'; subst h'; decide))

theorem reachable_exB : Reachable exB :=
  Reachable.step reachable_exA
    (Step.malloc exA (some 2000) 50 "hello.c" 2
      (fun a h => by injection h with h'; subst h'; decide))

theorem reachable_exC : Reachable exC :=
  Reachable.step reachable_exB (Step.free exB 1000 "hello.c" 3)

theorem reachable_exFail : Reachable exFail :=
  Reachable.step Reachable.init
    (Step.malloc m61_initial none 7 "hello.c" 4 (fun _ h => nomatch h))

/-! ### The heap bounds stay at their sentinel until the first allocation -/

theorem m61_malloc_empty_history (s : AllocState) (raw : Option Nat) (sz : Nat)
    (file : String) (line : Int)
    (he : (m61_malloc s raw sz file line).2.history = []) :
    s.history = [] ∧ (m61_malloc s raw sz file line).2.heap_min = s.heap_min ∧
      (m61_malloc s raw sz file line).2.heap_max = s.heap_max := by
  by_cases hg : ULONG_MAX - BOUNDARY_CHECK_SIZE ≤ sz
  · rw [m61_malloc_guard_reject hg] at he ⊢
    exact ⟨he, rfl, rfl⟩
  cases raw with
  | none =>
      rw [m61_malloc_raw_fail hg] at he ⊢
      exact ⟨he, rfl, rfl⟩
  | some addr =>
      simp only [m61_malloc, if_neg hg] at he
      simp at he

theorem m61_free_history (s : AllocState) (ptr : Nat) (file : String)
    (line : Int) : (m61_free s ptr file line).2.history = s.history := by
  by_cases h0 : ptr = 0
  · rw [h0, m61_free_null]
  by_cases hf : ptr ∈ s.free_list
  · rw [m61_free_double h0 hf]
  cases hm : lookupKey ptr s.metadata with
  | none =>
      by_cases hb : ptr < s.heap_min ∨ s.heap_max < ptr
      · rw [m61_free_not_in_heap h0 hf hm hb]
      · rw [m61_free_not_allocated h0 hf hm hb]
  | some meta =>
      by_cases hc : load4 s.mem ((ptr + meta.sz) % U64) = BOUNDARY_CHECK
      · rw [m61_free_live_ok h0 hf hm hc]
      · rw [m61_free_wild h0 hf hm hc]

theorem m61_calloc_empty_history (s : AllocState) (raw : Option Nat)
    (nmemb sz : Nat) (file : String) (line : Int)
    (he : (m61_calloc s raw nmemb sz file line).2.history = []) :
    s.history = [] ∧
      (m61_calloc s raw nmemb sz file line).2.heap_min = s.heap_min ∧
      (m61_calloc s raw nmemb sz file line).2.heap_max = s.heap_max := by
  by_cases hn : nmemb ≠ 0
  all_goals by_cases ho : (nmemb * sz) % U64 / nmemb ≠ sz
  · rw [m61_calloc_overflow hn ho] at he ⊢
    exact ⟨he, rfl, rfl⟩
  all_goals {
    have h := m61_malloc_empty_history s raw ((nmemb * sz) % U64) file line
    simp only [m61_calloc, hn, ho, if_neg, and_false, false_and, if_false] at he ⊢
    cases hr : (m61_malloc s raw ((nmemb * sz) % U64) file line).1 with
    | none =>
        simp only [hr] at he ⊢
        exact h he
    | some addr =>
        simp only [hr] at he ⊢
        exact h he
  }

theorem step_empty_history {s s' : AllocState} (h : Step s s')
    (he : s'.history = []) :
    s.history = [] ∧ s'.heap_min = s.heap_min ∧ s'.heap_max = s.heap_max := by
  cases h with
  | malloc raw sz file line hraw =>
      exact m61_malloc_empty_history s raw sz file line he
  | calloc raw nmemb sz file line hraw =>
      exact m61_calloc_empty_history s raw nmemb sz file line he
  | free ptr file line =>
      obtain ⟨h1, h2⟩ := m61_free_heap_bounds s ptr file line
      rw [m61_free_history s ptr file line] at he
      exact ⟨he, h1, h2⟩
  | poke a v => exact ⟨he, rfl, rfl⟩

theorem reachable_empty_history {s : AllocState} (h : Reachable s)
    (he : s.history = []) : s.heap_min = LONG_MAX ∧ s.heap_max = 0 := by
  induction h with
  | init => exact ⟨rfl, rfl⟩
  | step hr hstep ih =>
      obtain ⟨h1, h2, h3⟩ := step_empty_history hstep he
      rw [h2, h3]
      exact ih h1

/-! ### Claim theorems -/

/-- C2: for every non-null pointer present in the freed-address set,
    `m61_free` is fatal with the double-free diagnostic and terminates with
    the state completely unchanged (no counter, metadata entry, or
    freed-address-set entry is modified). -/
theorem claim2_double_free_fatal (s : AllocState) (ptr : Nat) (file : String)
    (line : Int) (h0 : ptr ≠ 0) (hf : ptr ∈ s.free_list) :
    m61_free s ptr file line = (.fatal .doubleFree, s) :=
  m61_free_double h0 hf

/-- Witness for C2: freeing address 1000 a second time after the trace
    alloc 100, alloc 50, free 1000 is fatal with an unchanged state. -/
theorem claim2_double_free_fatal_witness :
    m61_free exC 1000 "w.c" 9 = (.fatal .doubleFree, exC) :=
  claim2_double_free_fatal exC 1000 "w.c" 9 (by decide) (by decide)

/-- C3: in every state reachable by allocate / allocateZeroed / free
    operations, `active_size` equals the sum of the recorded sizes over the
    metadata store and `nactive` equals the store's entry count. -/
theorem claim3_active_counters (s : AllocState) (hs : Reachable s) :
    s.active_size = (s.metadata.map (fun p => p.2.sz)).sum ∧
      s.nactive = s.metadata.length :=
  ⟨(reachable_inv hs).asum, (reachable_inv hs).acnt⟩

/-- Witness for C3: the invariant evaluated on the concrete trace
    alloc 100 at 1000, alloc 50 at 2000, free 1000. -/
theorem claim3_active_counters_witness :
    exC.active_size = (exC.metadata.map (fun p => p.2.sz)).sum ∧
      exC.nactive = exC.metadata.length :=
  claim3_active_counters exC reachable_exC

/-- C4: when `nmemb != 0` and the product `nmemb * sz` overflows 64-bit
    `size_t` (detected by `(nmemb * sz) / nmemb != sz` at that width),
    `m61_calloc` fails immediately: it returns null, increments `nfail`,
    adds to `fail_size`, and never invokes the raw allocator (the state
    equality fixes `base_calls`, so `base_malloc` is not called). -/
theorem claim4_calloc_overflow (s : AllocState) (raw : Option Nat)
    (nmemb sz : Nat) (file : String) (line : Int) (hn : nmemb ≠ 0)
    (ho : (nmemb * sz) % U64 / nmemb ≠ sz) :
    m61_calloc s raw nmemb sz file line =
      (none, { s with nfail := (s.nfail + 1) % U64,
                      fail_size := (s.fail_size + sz) % U64 }) :=
  m61_calloc_overflow hn ho

/-- Witness for C4: `m61_calloc(2^62, 8)` overflows (the 64-bit product is
    0) and fails without touching the raw allocator. -/
theorem claim4_calloc_overflow_witness :
    m61_calloc m61_initial (some 3000) (2 ^ 62) 8 "t.c" 7 =
      (none, { m61_initial with nfail := (m61_initial.nfail + 1) % U64,
                                fail_size := (m61_initial.fail_size + 8) % U64 }) :=
  claim4_calloc_overflow m61_initial (some 3000) (2 ^ 62) 8 "t.c" 7
    (by decide) (by decide)

/-- C5: freeing a non-null pointer that is neither live in the metadata
    store nor in the freed-address set is fatal, classified by the heap
    bounds: outside `[heap_min, heap_max]` the diagnostic is "not in heap",
    inside the bounds it is "not allocated"; the state is unchanged. -/
theorem claim5_invalid_free_classified (s : AllocState) (ptr : Nat)
    (file : String) (line : Int) (h0 : ptr ≠ 0) (hf : ptr ∉ s.free_list)
    (hm : lookupKey ptr s.metadata = none) :
    ((ptr < s.heap_min ∨ s.heap_max < ptr) →
        m61_free s ptr file line = (.fatal .notInHeap, s)) ∧
    (s.heap_min ≤ ptr → ptr ≤ s.heap_max →
        m61_free s ptr file line = (.fatal .notAllocated, s)) := by
  constructor
  · intro hb
    exact m61_free_not_in_heap h0 hf hm hb
  · intro hb1 hb2
    exact m61_free_not_allocated h0 hf hm (by omega)

/-- Witness for C5: with live blocks at [1000,1100) and [2000,2050) the heap
    bounds are [1000, 2050]; freeing 500 is "not in heap" and freeing 1500
    is "not allocated". -/
theorem claim5_invalid_free_classified_witness :
    m61_free exB 500 "x.c" 9 = (.fatal .notInHeap, exB) ∧
      m61_free exB 1500 "x.c" 9 = (.fatal .notAllocated, exB) :=
  ⟨(claim5_invalid_free_classified exB 500 "x.c" 9 (by decide) (by decide)
      (by decide)).1 (by decide),
   (claim5_invalid_free_classified exB 1500 "x.c" 9 (by decide) (by decide)
      (by decide)).2 (by decide) (by decide)⟩

/-- C6: every allocation record ever created satisfies
    `heap_min ≤ address` and `address + size ≤ heap_max` (equivalently
    `address ≤ heap_max - size`) from its creation onward, and a single step
    can only lower `heap_min` and raise `heap_max` (the bounds only widen). -/
theorem claim6_heap_bounds_monotone :
    (∀ s : AllocState, Reachable s → ∀ r ∈ s.history,
        s.heap_min ≤ r.1 ∧ r.1 + r.2 ≤ s.heap_max ∧
          r.1 ≤ s.heap_max - r.2) ∧
    (∀ s s' : AllocState, Step s s' →
        s'.heap_min ≤ s.heap_min ∧ s.heap_max ≤ s'.heap_max) := by
  constructor
  · intro s hs r hr
    obtain ⟨h1, h2⟩ := (reachable_inv hs).hist r hr
    exact ⟨h1, h2, by omega⟩
  · intro s s' h
    exact step_heap_bounds h

/-- Witness for C6: the record (1000, 100) in the one-allocation state, and
    the monotone widening across the second allocation step. -/
theorem claim6_heap_bounds_monotone_witness :
    (exA.heap_min ≤ 1000 ∧ 1000 + 100 ≤ exA.heap_max ∧
      1000 ≤ exA.heap_max - 100) ∧
    (exB.heap_min ≤ exA.heap_min ∧ exA.heap_max ≤ exB.heap_max) :=
  ⟨claim6_heap_bounds_monotone.1 exA reachable_exA (1000, 100) (by decide),
   claim6_heap_bounds_monotone.2 exA exB
     (Step.malloc exA (some 2000) 50 "hello.c" 2
       (fun a h => by injection h with h'; subst h'; decide))⟩

/-- C8: `m61_get_statistics` is a pure read (it maps the state to the
    snapshot of the eight counters without changing anything), and as long
    as no allocation has ever succeeded the snapshot reports the sentinel
    bounds `heap_min = LONG_MAX` (the "unset/maximal" initializer) and
    `heap_max = 0`. -/
theorem claim8_statistics_pure_sentinel :
    (∀ s : AllocState, m61_get_statistics s =
        { nactive := s.nactive, active_size := s.active_size,
          ntotal := s.ntotal, total_size := s.total_size, nfail := s.nfail,
          fail_size := s.fail_size, heap_min := s.heap_min,
          heap_max := s.heap_max }) ∧
    (∀ s : AllocState, Reachable s → s.history = [] →
        (m61_get_statistics s).heap_min = LONG_MAX ∧
          (m61_get_statistics s).heap_max = 0) := by
  refine ⟨fun s => rfl, fun s hs he => ?_⟩
  obtain ⟨h1, h2⟩ := reachable_empty_history hs he
  simp [m61_get_statistics, h1, h2]

/-- Witness for C8: after a failed 7-byte allocation (still no successful
    allocation) the snapshot still shows the sentinel bounds. -/
theorem claim8_statistics_pure_sentinel_witness :
    (m61_get_statistics exFail).heap_min = LONG_MAX ∧
      (m61_get_statistics exFail).heap_max = 0 :=
  claim8_statistics_pure_sentinel.2 exFail reachable_exFail (by decide)

/-- C9 (evidence of the divergence): `m61_print_heavy_hitter_report` has an
    empty body in the source, so it reports nothing even in a state whose
    history contains an allocation site with nonzero volume. -/
theorem claim9_heavy_hitter_stub_empty :
    m61_print_heavy_hitter_report exA = [] ∧ exA.ntotal = 1 ∧
      exA.total_size = 100 ∧ exA.history ≠ [] :=
  ⟨rfl, by decide, by decide, by decide⟩

/-- C10: the allocation overflow guard rejects exactly the sizes
    `sz ≥ ULONG_MAX - BOUNDARY_CHECK_SIZE` (with `BOUNDARY_CHECK_SIZE = 4`):
    rejected requests fail without invoking the raw allocator while
    incrementing `nfail`/`fail_size`, every smaller size reaches the raw
    allocator, and the boundary size `ULONG_MAX - 4` is rejected even though
    `(ULONG_MAX - 4) + 4` does not overflow `size_t`. -/
theorem claim10_malloc_guard_exact :
    (∀ (s : AllocState) (raw : Option Nat) (sz : Nat) (file : String)
        (line : Int), ULONG_MAX - BOUNDARY_CHECK_SIZE ≤ sz →
        m61_malloc s raw sz file line =
          (none, { s with nfail := (s.nfail + 1) % U64,
                          fail_size := (s.fail_size + sz) % U64 })) ∧
    (∀ (s : AllocState) (raw : Option Nat) (sz : Nat) (file : String)
        (line : Int), sz < ULONG_MAX - BOUNDARY_CHECK_SIZE →
        s.base_calls < (m61_malloc s raw sz file line).2.base_calls) ∧
    ULONG_MAX - BOUNDARY_CHECK_SIZE = ULONG_MAX - 4 ∧
    ULONG_MAX - 4 + 4 ≤ ULONG_MAX := by
  refine ⟨fun s raw sz file line hg => m61_malloc_guard_reject hg, ?_, rfl,
    by decide⟩
  intro s raw sz file line hlt
  have hg : ¬ ULONG_MAX - BOUNDARY_CHECK_SIZE ≤ sz := by omega
  cases raw with
  | none =>
      rw [m61_malloc_raw_fail hg]
      show s.base_calls < s.base_calls + 1
      omega
  | some addr =>
      simp only [m61_malloc, if_neg hg]
      show s.base_calls < s.base_calls + 2
      omega

/-- Witness for C10: the boundary size `ULONG_MAX - 4` is rejected with the
    failure counters bumped and `base_calls` untouched, while a 5-byte
    request reaches the raw allocator. -/
theorem claim10_malloc_guard_exact_witness :
    m61_malloc m61_initial none (ULONG_MAX - 4) "t.c" 1 =
      (none, { m61_initial with
                 nfail := (m61_initial.nfail + 1) % U64,
                 fail_size := (m61_initial.fail_size + (ULONG_MAX - 4)) % U64 }) ∧
    m61_initial.base_calls <
      (m61_malloc m61_initial none 5 "t.c" 1).2.base_calls :=
  ⟨claim10_malloc_guard_exact.1 m61_initial none (ULONG_MAX - 4) "t.c" 1
      (by decide),
   claim10_malloc_guard_exact.2.1 m61_initial none 5 "t.c" 1 (by decide)⟩

/-- C1: a successful allocation writes the canary sentinel at byte offset
    `address + size`; freeing a pointer that is live in the metadata store
    verifies the canary at `address + record.sz`: on mismatch the free is
    fatal with the wild-write diagnostic and the state unchanged, on match
    the free proceeds normally (record removed, counters decremented,
    address added to the freed set). -/
theorem claim1_canary_write_verify :
    (∀ (s : AllocState) (addr sz : Nat) (file : String) (line : Int),
        ¬ ULONG_MAX - BOUNDARY_CHECK_SIZE ≤ sz →
        addr + sz + BOUNDARY_CHECK_SIZE ≤ U64 →
        load4 (m61_malloc s (some addr) sz file line).2.mem (addr + sz) =
          BOUNDARY_CHECK) ∧
    (∀ (s : AllocState) (ptr : Nat) (file : String) (line : Int)
        (meta : metadata_node), ptr ≠ 0 → ptr ∉ s.free_list →
        lookupKey ptr s.metadata = some meta →
        ptr + meta.sz + BOUNDARY_CHECK_SIZE ≤ U64 →
        (load4 s.mem (ptr + meta.sz) ≠ BOUNDARY_CHECK →
            m61_free s ptr file line = (.fatal .wildWrite, s)) ∧
        (load4 s.mem (ptr + meta.sz) = BOUNDARY_CHECK →
            m61_free s ptr file line =
              (.ok, { s with nactive := wsub s.nactive 1,
                             active_size := wsub s.active_size meta.sz,
                             metadata := eraseKey ptr s.metadata,
                             free_list := s.free_list.insert ptr }))) := by
  constructor
  · intro s addr sz file line hg hfit
    have hB : BOUNDARY_CHECK_SIZE = 4 := rfl
    have hmod : (addr + sz) % U64 = addr + sz := Nat.mod_eq_of_lt (by omega)
    simp only [m61_malloc, if_neg hg]
    show load4 (store4 s.mem ((addr + sz) % U64) BOUNDARY_CHECK) (addr + sz) =
      BOUNDARY_CHECK
    rw [hmod, load4_store4_same]
    decide
  · intro s ptr file line meta h0 hf hm hfit
    have hB : BOUNDARY_CHECK_SIZE = 4 := rfl
    have hmod : (ptr + meta.sz) % U64 = ptr + meta.sz :=
      Nat.mod_eq_of_lt (by omega)
    constructor
    · intro hc
      exact m61_free_wild h0 hf hm (by rw [hmod]; exact hc)
    · intro hc
      exact m61_free_live_ok h0 hf hm (by rw [hmod]; exact hc)

/-- Witness for C1: the canary is readable at 1000 + 100 after the concrete
    allocation; freeing with the canary intact succeeds, and freeing after
    the host overwrote byte 1101 is fatal with the wild-write diagnostic. -/
theorem claim1_canary_write_verify_witness :
    load4 (m61_malloc m61_initial (some 1000) 100 "hello.c" 1).2.mem
        (1000 + 100) = BOUNDARY_CHECK ∧
    m61_free exA 1000 "w.c" 5 =
      (.ok, { exA with
                nactive := wsub exA.nactive 1,
                active_size :=
                  wsub exA.active_size (⟨"hello.c", 1, 100⟩ : metadata_node).sz,
                metadata := eraseKey 1000 exA.metadata,
                free_list := exA.free_list.insert 1000 }) ∧
    m61_free { exA with mem := writeByte exA.mem 1101 0 } 1000 "w.c" 6 =
      (.fatal .wildWrite, { exA with mem := writeByte exA.mem 1101 0 }) :=
  ⟨claim1_canary_write_verify.1 m61_initial 1000 100 "hello.c" 1 (by decide)
      (by decide),
   (claim1_canary_write_verify.2 exA 1000 "w.c" 5 ⟨"hello.c", 1, 100⟩
      (by decide) (by decide) (by decide) (by decide)).2 (by decide),
   (claim1_canary_write_verify.2 { exA with mem := writeByte exA.mem 1101 0 }
      1000 "w.c" 6 ⟨"hello.c", 1, 100⟩ (by decide) (by decide) (by decide)
      (by decide)).1 (by decide)⟩

/-- Freeing the 100-byte block at `a1` in the two-block state reached by the
    statistics scenario, with the memory and heap bounds kept abstract. -/
theorem free_scenario_helper (a1 a2 hm hx : Nat) (f1 f2 f3 : String)
    (l1 l2 l3 : Int) (M : Mem) (h1 : a1 ≠ 0) (hne : a1 ≠ a2)
    (hc : load4 M ((a1 + 100) % U64) = BOUNDARY_CHECK) :
    m61_free
      ({ metadata := [(a2, ⟨f2, l2, 50⟩), (a1, ⟨f1, l1, 100⟩)],
         free_list := [], ntotal := 2, nactive := 2, active_size := 150,
         total_size := 150, fail_size := 0, nfail := 0,
         heap_min := hm, heap_max := hx, mem := M,
         base_calls := 4, history := [(a2, 50), (a1, 100)] } : AllocState)
      a1 f3 l3 =
      (FreeResult.ok,
        { metadata := eraseKey a1 [(a2, ⟨f2, l2, 50⟩), (a1, ⟨f1, l1, 100⟩)],
          free_list := ([] : List Nat).insert a1, ntotal := 2,
          nactive := wsub 2 1, active_size := wsub 150 100,
          total_size := 150, fail_size := 0, nfail := 0,
          heap_min := hm, heap_max := hx, mem := M,
          base_calls := 4, history := [(a2, 50), (a1, 100)] }) := by
  have hfns : a1 ∉ ([] : List Nat) := by simp
  have hmeta : lookupKey a1
      [(a2, (⟨f2, l2, 50⟩ : metadata_node)),
       (a1, (⟨f1, l1, 100⟩ : metadata_node))] = some ⟨f1, l1, 100⟩ := by
    simp [lookupKey, Ne.symm hne]
  exact @m61_free_live_ok
      ({ metadata := [(a2, ⟨f2, l2, 50⟩), (a1, ⟨f1, l1, 100⟩)],
         free_list := [], ntotal := 2, nactive := 2, active_size := 150,
         total_size := 150, fail_size := 0, nfail := 0,
         heap_min := hm, heap_max := hx, mem := M,
         base_calls := 4, history := [(a2, 50), (a1, 100)] } : AllocState)
      a1 f3 l3 ⟨f1, l1, 100⟩ h1 hfns hmeta hc

set_option maxRecDepth 4000 in
/-- C7: from the empty initial state, allocating 100 bytes, then 50 bytes,
    then freeing the 100-byte block succeeds and yields the snapshot
    `nactive = 1`, `active_size = 50`, `ntotal = 2`, `total_size = 150`,
    `nfail = 0` (for any non-null, in-range, non-overlapping addresses the
    raw allocator may have chosen). -/
theorem claim7_statistics_scenario (a1 a2 : Nat) (f1 f2 f3 : String)
    (l1 l2 l3 : Int) (h1 : a1 ≠ 0) (h2 : a1 + 104 ≤ U64)
    (h3 : a2 + 54 ≤ U64) (h4 : a1 + 104 ≤ a2 ∨ a2 + 54 ≤ a1) :
    (m61_free (m61_malloc (m61_malloc m61_initial (some a1) 100 f1 l1).2
        (some a2) 50 f2 l2).2 a1 f3 l3).1 = FreeResult.ok ∧
    (m61_get_statistics (m61_free (m61_malloc
        (m61_malloc m61_initial (some a1) 100 f1 l1).2
        (some a2) 50 f2 l2).2 a1 f3 l3).2).nactive = 1 ∧
    (m61_get_statistics (m61_free (m61_malloc
        (m61_malloc m61_initial (some a1) 100 f1 l1).2
        (some a2) 50 f2 l2).2 a1 f3 l3).2).active_size = 50 ∧
    (m61_get_statistics (m61_free (m61_malloc
        (m61_malloc m61_initial (some a1) 100 f1 l1).2
        (some a2) 50 f2 l2).2 a1 f3 l3).2).ntotal = 2 ∧
    (m61_get_statistics (m61_free (m61_malloc
        (m61_malloc m61_initial (some a1) 100 f1 l1).2
        (some a2) 50 f2 l2).2 a1 f3 l3).2).total_size = 150 ∧
    (m61_get_statistics (m61_free (m61_malloc
        (m61_malloc m61_initial (some a1) 100 f1 l1).2
        (some a2) 50 f2 l2).2 a1 f3 l3).2).nfail = 0 := by
  have hg1 : ¬ ULONG_MAX - BOUNDARY_CHECK_SIZE ≤ 100 := by decide
  have hg2 : ¬ ULONG_MAX - BOUNDARY_CHECK_SIZE ≤ 50 := by decide
  have hne : a1 ≠ a2 := by omega
  have hf1 : lookupKey a1 m61_initial.metadata = none := rfl
  have E1 : (m61_malloc m61_initial (some a1) 100 f1 l1).2 =
      { metadata := [(a1, ⟨f1, l1, 100⟩)], free_list := [], ntotal := 1,
        nactive := 1, active_size := 100, total_size := 100, fail_size := 0,
        nfail := 0,
        heap_min := if a1 < LONG_MAX then a1 else LONG_MAX,
        heap_max := if 0 < (a1 + 100) % U64 then (a1 + 100) % U64 else 0,
        mem := store4 [] ((a1 + 100) % U64) BOUNDARY_CHECK,
        base_calls := 2, history := [(a1, 100)] } := by
    rw [m61_malloc_success hg1 hf1]
    rfl
  have hf2 : lookupKey a2
      [(a1, (⟨f1, l1, 100⟩ : metadata_node))] = none := by
    simp [lookupKey, hne]
  have E2 : (m61_malloc
      ({ metadata := [(a1, ⟨f1, l1, 100⟩)], free_list := [], ntotal := 1,
         nactive := 1, active_size := 100, total_size := 100, fail_size := 0,
         nfail := 0,
         heap_min := if a1 < LONG_MAX then a1 else LONG_MAX,
         heap_max := if 0 < (a1 + 100) % U64 then (a1 + 100) % U64 else 0,
         mem := store4 [] ((a1 + 100) % U64) BOUNDARY_CHECK,
         base_calls := 2, history := [(a1, 100)] } : AllocState)
      (some a2) 50 f2 l2).2 =
      { metadata := [(a2, ⟨f2, l2, 50⟩), (a1, ⟨f1, l1, 100⟩)],
        free_list := [], ntotal := 2, nactive := 2, active_size := 150,
        total_size := 150, fail_size := 0, nfail := 0,
        heap_min := if a2 < (if a1 < LONG_MAX then a1 else LONG_MAX)
                    then a2 else (if a1 < LONG_MAX then a1 else LONG_MAX),
        heap_max := if (if 0 < (a1 + 100) % U64 then (a1 + 100) % U64 else 0)
                         < (a2 + 50) % U64
                    then (a2 + 50) % U64
                    else (if 0 < (a1 + 100) % U64 then (a1 + 100) % U64
                          else 0),
        mem := store4 (store4 [] ((a1 + 100) % U64) BOUNDARY_CHECK)
          ((a2 + 50) % U64) BOUNDARY_CHECK,
        base_calls := 4, history := [(a2, 50), (a1, 100)] } := by
    rw [m61_malloc_success hg2 hf2]
    rfl
  have e1 : (a1 + 100) % U64 = a1 + 100 := Nat.mod_eq_of_lt (by omega)
  have e2 : (a2 + 50) % U64 = a2 + 50 := Nat.mod_eq_of_lt (by omega)
  have hfns : a1 ∉ ([] : List Nat) := by simp
  have hmeta : lookupKey a1
      [(a2, (⟨f2, l2, 50⟩ : metadata_node)),
       (a1, (⟨f1, l1, 100⟩ : metadata_node))] = some ⟨f1, l1, 100⟩ := by
    simp [lookupKey, Ne.symm hne]
  have hc : load4 (store4 (store4 [] ((a1 + 100) % U64)
      BOUNDARY_CHECK) ((a2 + 50) % U64) BOUNDARY_CHECK)
      ((a1 + 100) % U64) = BOUNDARY_CHECK := by
    rw [e1, e2, load4_store4_disjoint _ _ _ _ (by omega), load4_store4_same]
    decide
  have E3 := free_scenario_helper a1 a2
      (if a2 < (if a1 < LONG_MAX then a1 else LONG_MAX)
       then a2 else (if a1 < LONG_MAX then a1 else LONG_MAX))
      (if (if 0 < (a1 + 100) % U64 then (a1 + 100) % U64 else 0)
           < (a2 + 50) % U64
       then (a2 + 50) % U64
       else (if 0 < (a1 + 100) % U64 then (a1 + 100) % U64 else 0))
      f1 f2 f3 l1 l2 l3
      (store4 (store4 [] ((a1 + 100) % U64) BOUNDARY_CHECK)
        ((a2 + 50) % U64) BOUNDARY_CHECK)
      h1 hne hc
  rw [E1, E2, E3]
  refine ⟨rfl, ?_, ?_, ?_, ?_, ?_⟩ <;> rfl

/-- Witness for C7: the scenario run at the concrete addresses 1000 and
    2000. -/
theorem claim7_statistics_scenario_witness :
    (m61_free (m61_malloc (m61_malloc m61_initial (some 1000) 100 "a.c" 1).2
        (some 2000) 50 "a.c" 2).2 1000 "a.c" 3).1 = FreeResult.ok ∧
    (m61_get_statistics (m61_free (m61_malloc
        (m61_malloc m61_initial (some 1000) 100 "a.c" 1).2
        (some 2000) 50 "a.c" 2).2 1000 "a.c" 3).2).nactive = 1 ∧
    (m61_get_statistics (m61_free (m61_malloc
        (m61_malloc m61_initial (some 1000) 100 "a.c" 1).2
        (some 2000) 50 "a.c" 2).2 1000 "a.c" 3).2).active_size = 50 ∧
    (m61_get_statistics (m61_free (m61_malloc
        (m61_malloc m61_initial (some 1000) 100 "a.c" 1).2
        (some 2000) 50 "a.c" 2).2 1000 "a.c" 3).2).ntotal = 2 ∧
    (m61_get_statistics (m61_free (m61_malloc
        (m61_malloc m61_initial (some 1000) 100 "a.c" 1).2
        (some 2000) 50 "a.c" 2).2 1000 "a.c" 3).2).total_size = 150 ∧
    (m61_get_statistics (m61_free (m61_malloc
        (m61_malloc m61_initial (some 1000) 100 "a.c" 1).2
        (some 2000) 50 "a.c" 2).2 1000 "a.c" 3).2).nfail = 0 :=
  claim7_statistics_scenario 1000 2000 "a.c" "a.c" "a.c" 1 2 3 (by decide)
    (by decide) (by decide) (by decide)

end M61
